import Mathlib

/-!
Shallow embedding of the ScrapeSmart repository (src/Main_project) and proofs
about its specification claims.

Source files embedded:
* `scraper.py`   — `WebScraper.dom_content_length`, `WebScraper.scrape`,
                   `WebScraper.Multi_scrape`
* `AI_model.py`  — `Model.process_with_chunking`, `Model.process_with_nochunking`,
                   `Model.chunk_with_gemini`, `Model.chunk_with_deepseek`,
                   `Model.nochunk_with_gemini`, `Model.nochunk_with_deepseek`,
                   `Model.construct_prompt`
* `data_preprocessor.py` — `DataProcessor.Result_to_dataframe`

External collaborators (the Selenium page fetcher, BeautifulSoup DOM cleaning,
and the generative-model transports) are modelled as oracle functions passed in
as parameters; a model call that raises is an oracle returning `.error`.
Python's in-place mutation of the `history` list is modelled by explicit state
passing: each embedded function returns the final content of the list.
-/

namespace ScrapeSmart

/-! ## Python string primitives -/

/-- Substring-test helper: does `n` start `h` (character-wise)? -/
def pfxChars : List Char → List Char → Bool
  | [], _ => true
  | _ :: _, [] => false
  | a :: as, b :: bs => a == b && pfxChars as bs

/-- Does `n` occur as a contiguous substring of `h`? -/
def findSub (n : List Char) : List Char → Bool
  | [] => pfxChars n []
  | b :: bs => pfxChars n (b :: bs) || findSub n bs

/-- Python's `needle in hay` on strings (substring containment). -/
def strIn (needle hay : String) : Bool :=
  findSub needle.data hay.data

/-- Python's `s.strip(chars)`: remove any leading/trailing characters that
belong to `cs`. -/
def stripSet (cs : List Char) (s : String) : String :=
  String.mk (((s.data.dropWhile (cs.contains ·)).reverse.dropWhile (cs.contains ·)).reverse)

/-- Python's `s.strip()`: remove leading/trailing whitespace. -/
def pyTrim (s : String) : String :=
  String.mk (((s.data.dropWhile Char.isWhitespace).reverse.dropWhile Char.isWhitespace).reverse)

/-- Helper for `pySplitChar`: `cur` holds the characters of the current field,
in reverse. -/
def splitCharGo (sep : Char) : List Char → List Char → List String
  | [], cur => [String.mk cur.reverse]
  | c :: cs, cur =>
    if c = sep then String.mk cur.reverse :: splitCharGo sep cs []
    else splitCharGo sep cs (c :: cur)

/-- Python's `s.split(sep)` for a one-character separator (the repository only
splits on `"\n"` and `"|"`): empty fields are kept, `"".split(sep) = [""]`. -/
def pySplitChar (sep : Char) (s : String) : List String :=
  splitCharGo sep s.data []

/-- Python's `s.startswith(pre)`. -/
def pyStartsWith (pre s : String) : Bool :=
  pfxChars pre.data s.data

/-! ## `WebScraper.dom_content_length` (scraper.py lines 113–122)

`return [content[i : i + max_length] for i in range(0, len(content), max_length)]`

Strings are sliced by code points, so we embed the slicing on `List Char`.
The guard `L = 0` is outside the claims' scope (`range` with step 0 raises in
Python); the claims all require `max_length > 0`. -/

/-- Successive slices `cs[i : i+L]` for `i = 0, L, 2L, …`, as produced by the
list comprehension over `range(0, len(content), max_length)`. -/
def chunkList (L : Nat) (cs : List Char) : List (List Char) :=
  if cs = [] ∨ L = 0 then []
  else cs.take L :: chunkList L (cs.drop L)
  termination_by cs.length
  decreasing_by
    rename_i h
    push_neg at h
    have h1 : cs ≠ [] := h.1
    have h2 : L ≠ 0 := h.2
    have h3 : 0 < cs.length := List.length_pos.mpr h1
    simp only [List.length_drop]
    omega

/-- Embeds `WebScraper.dom_content_length`: split `content` into consecutive slices of
length `max_length` (the final slice may be shorter). -/
def dom_content_length (content : String) (max_length : Nat) : List String :=
  (chunkList max_length content.data).map String.mk

theorem chunkList_nil (L : Nat) : chunkList L [] = [] := by
  rw [chunkList]
  simp

/-- Concatenating the slices gives back the original character list. -/
theorem chunkList_join (L : Nat) (hL : L ≠ 0) (cs : List Char) :
    (chunkList L cs).flatten = cs := by
  generalize hn : cs.length = n
  induction n using Nat.strong_induction_on generalizing cs with
  | _ n ih =>
    rw [chunkList]
    by_cases hcs : cs = []
    · simp [hcs]
    · rw [if_neg (by push_neg; exact ⟨hcs, hL⟩)]
      rw [List.flatten_cons]
      have hlen : (cs.drop L).length < n := by
        have h3 : 0 < cs.length := List.length_pos.mpr hcs
        simp only [List.length_drop]
        omega
      rw [ih (cs.drop L).length hlen (cs.drop L) rfl]
      exact List.take_append_drop L cs

/-- Every slice except possibly the last has length exactly `L`. -/
theorem chunkList_dropLast_length (L : Nat) (hL : L ≠ 0) (cs : List Char) :
    ∀ c ∈ (chunkList L cs).dropLast, c.length = L := by
  generalize hn : cs.length = n
  induction n using Nat.strong_induction_on generalizing cs with
  | _ n ih =>
    intro c hc
    rw [chunkList] at hc
    by_cases hcs : cs = []
    · simp [hcs] at hc
    · rw [if_neg (by push_neg; exact ⟨hcs, hL⟩)] at hc
      rcases h : chunkList L (cs.drop L) with _ | ⟨r, rs⟩
      · rw [h] at hc
        simp at hc
      · rw [h] at hc
        rw [List.dropLast_cons₂] at hc
        have hlen : (cs.drop L).length < n := by
          have h3 : 0 < cs.length := List.length_pos.mpr hcs
          simp only [List.length_drop]
          omega
        rcases List.mem_cons.mp hc with hc1 | hc2
        · -- c is the head slice `cs.take L`; the tail of slices is nonempty,
          -- so `cs.drop L ≠ []`, hence `L < cs.length` and the take is full.
          have hdrop : cs.drop L ≠ [] := by
            intro hd
            rw [hd, chunkList_nil] at h
            exact List.noConfusion h
          have hLlt : L ≤ cs.length := by
            by_contra hgt
            push_neg at hgt
            exact hdrop (List.drop_eq_nil_of_le (le_of_lt hgt))
          rw [hc1]
          simp [List.length_take]
          omega
        · rw [← h] at hc2
          exact ih (cs.drop L).length hlen (cs.drop L) rfl c hc2

/-! ## `Model` (AI_model.py)

A conversation turn. Gemini encodes a turn as `{"role", "parts": [{"text": …}]}`
with roles `user`/`model`; DeepSeek as `{"role", "content"}` with roles
`user`/`assistant`/`system`. Both carry one role string and one text payload,
embedded as the two fields below (the singleton `parts:[{text: …}]` wrapper is
flattened into `content`). -/
structure ChatMsg where
  role : String
  content : String
deriving DecidableEq, Repr

/-- An entry of the DeepSeek per-call message list. AI_model.py lines 138 and
269 seed the list with the bare system-prompt *string* (`[system_prompt]`, not
a role dict), so the list is heterogeneous: `inl` a bare string, `inr` a turn
dict. -/
abbrev DsMsg := String ⊕ ChatMsg

/-- Oracle for Gemini streamed calls: given the system instruction and the
history passed to `model.generate_content(history, stream=True)`, either the
accumulated streamed text (`.ok`) or a raised exception (`.error`). -/
abbrev GemOracle := String → List ChatMsg → Except String String

/-- Oracle for the single-shot Gemini call `model.generate_content(description)`
(AI_model.py line 197): system instruction and plain string prompt. -/
abbrev GemTextOracle := String → String → Except String String

/-- Oracle for DeepSeek calls via `client.chat.completions.create`: given the
message list, the accumulated streamed text or a raised exception. -/
abbrev DsOracle := List DsMsg → Except String String

/-- Embeds `Model.construct_prompt` (AI_model.py lines 44–65). -/
def construct_prompt (description : String) : String :=
  "You are a precision data extraction assistant. Your sole purpose is to process web content according to specific criteria. "
    ++ "Follow these directives precisely:\n\n"
    ++ "1. **Information Extraction:** Extract ONLY data matching: " ++ description ++ ".\n"
    ++ "2. **Zero Commentary:** Never explain, justify, or add commentary to your output.\n"
    ++ "3. **Structured Format:** Present extracted data using Markdown formatting when appropriate (tables, lists).\n"
    ++ "4. **Empty Results:** Return an empty string (\x27\x27) if no matching information exists.\n"
    ++ "5. **Conversational Mode:** Only when NO content is provided for extraction, respond conversationally to user queries.\n"
    ++ "6. **Content Focus:** Focus exclusively on the content provided, not on external knowledge.\n"
    ++ "7. **Data Consolidation:** When processing multiple content chunks, merge related information into a single coherent output.\n"
    ++ "8. **Pattern Recognition:** Identify and extract recurring patterns in the data that match the description criteria."

/-- The no-content ("conversational") system instruction used by both
`nochunk_with_gemini` (lines 191–195) and `nochunk_with_deepseek`
(lines 250–255). -/
def scrapesmart_persona : String :=
  "You are tasked with extracting specific information from the given text content. "
    ++ "If the user asks anything about web scraping, remind them to provide a link above. "
    ++ "From now on, please refer to yourself as ScrapeSmart."

/-- The per-chunk user input `f"Text content: {chunk}\n\nDescription: {description}"`. -/
def chunkInput (chunk description : String) : String :=
  "Text content: " ++ chunk ++ "\n\nDescription: " ++ description

/-- The combined no-chunking user input
`"\n\n".join(chunks) + f"\n\nDescription: {description}"`. -/
def joinedInput (chunks : List String) (description : String) : String :=
  String.intercalate "\n\n" chunks ++ "\n\nDescription: " ++ description

/-- The `for chunk in chunks` loop of `Model.chunk_with_gemini` (AI_model.py
lines 87–105), with loop state `(history, all_responses)`. Per chunk: the user
turn is appended to `history` *before* the model call; if the accumulated
response is non-empty after `.strip()`, it is appended to `all_responses` and
as a `model` turn to `history`. A raised model call is caught by the
`except` at line 106, which returns `("", history)`. After the loop the
returned text is `"\n".join(all_responses)` (also the value when `chunks` is
empty: there the Python `return final_result` raises `NameError`, equally
caught at line 106, returning `("", history)`, and `"\n".join([]) = ""`). -/
def gchunkGo (gen : GemOracle) (sp d : String) :
    List String → List ChatMsg → List String → String × List ChatMsg
  | [], h, acc => (String.intercalate "\n" acc, h)
  | c :: cs, h, acc =>
    let h1 := h ++ [⟨"user", chunkInput c d⟩]
    match gen sp h1 with
    | .error _ => ("", h1)
    | .ok resp =>
      if pyTrim resp = "" then gchunkGo gen sp d cs h1 acc
      else gchunkGo gen sp d cs (h1 ++ [⟨"model", pyTrim resp⟩]) (acc ++ [pyTrim resp])

/-- Embeds `Model.chunk_with_gemini` (AI_model.py lines 67–108). The returned list is
the final content of the (in Python, in-place mutated) `history` list. -/
def chunk_with_gemini (gen : GemOracle) (chunks : List String)
    (description : String) (history : List ChatMsg) : String × List ChatMsg :=
  gchunkGo gen (construct_prompt description) description chunks history []

/-- The `for chunk in chunks` loop of `Model.chunk_with_deepseek` (AI_model.py
lines 133–165). Per chunk the call's message list is
`[system_prompt] + history + [user]` (the system prompt as a bare string,
lines 138–143); `history` itself is extended — by the user turn *and* the
assistant turn together — only when the stripped response is non-empty
(lines 159–165). A raised call is caught at line 171, returning
`("", history)` with `history` as of that moment. -/
def dchunkGo (gen : DsOracle) (sp d : String) :
    List String → List ChatMsg → List String → String × List ChatMsg
  | [], h, acc => (String.intercalate "\n" acc, h)
  | c :: cs, h, acc =>
    let fi := chunkInput c d
    match gen (Sum.inl sp :: h.map Sum.inr ++ [Sum.inr ⟨"user", fi⟩]) with
    | .error _ => ("", h)
    | .ok resp =>
      if pyTrim resp = "" then dchunkGo gen sp d cs h acc
      else dchunkGo gen sp d cs
        (h ++ [⟨"user", fi⟩, ⟨"assistant", pyTrim resp⟩]) (acc ++ [pyTrim resp])

/-- Embeds `Model.chunk_with_deepseek` (AI_model.py lines 110–173). -/
def chunk_with_deepseek (gen : DsOracle) (chunks : List String)
    (description : String) (history : List ChatMsg) : String × List ChatMsg :=
  dchunkGo gen (construct_prompt description) description chunks history []

/-- Embeds `Model.nochunk_with_gemini` (AI_model.py lines 175–226). The no-content
branch (lines 188–198) performs its model call *outside* the `try` that starts
at line 203, so a failure there propagates to the caller (`.error`). In the
content branch the user turn is appended before the call; a failure is caught
at line 224 and yields `("", history)` with that user turn in place. -/
def nochunk_with_gemini (gen : GemOracle) (genText : GemTextOracle)
    (chunks : List String) (description : String) (history : List ChatMsg) :
    Except String (String × List ChatMsg) :=
  if chunks.isEmpty then
    match genText scrapesmart_persona description with
    | .error e => .error e
    | .ok t => .ok (t, history)
  else
    let h1 := history ++ [⟨"user", joinedInput chunks description⟩]
    match gen (construct_prompt description) h1 with
    | .error _ => .ok ("", h1)
    | .ok resp =>
      if pyTrim resp = "" then .ok (pyTrim resp, h1)
      else .ok (pyTrim resp, h1 ++ [⟨"model", pyTrim resp⟩])

/-- Embeds `Model.nochunk_with_deepseek` (AI_model.py lines 228–300). Everything
after the client construction sits inside the `try` of line 244, so all model
call failures are caught, returning `("", history)`. History gains the
user+assistant pair only on a non-empty stripped response (lines 292–295). -/
def nochunk_with_deepseek (gen : DsOracle) (chunks : List String)
    (description : String) (history : List ChatMsg) : String × List ChatMsg :=
  if chunks.isEmpty then
    match gen [Sum.inr ⟨"system", scrapesmart_persona⟩,
               Sum.inr ⟨"user", description⟩] with
    | .error _ => ("", history)
    | .ok t => (t, history)
  else
    let fi := joinedInput chunks description
    match gen (Sum.inl (construct_prompt description) :: history.map Sum.inr
               ++ [Sum.inr ⟨"user", fi⟩]) with
    | .error _ => ("", history)
    | .ok resp =>
      if pyTrim resp = "" then (pyTrim resp, history)
      else (pyTrim resp, history ++ [⟨"user", fi⟩, ⟨"assistant", pyTrim resp⟩])

/-- Embeds `Model.process_with_chunking` (AI_model.py lines 13–25). Both branches call
the chunking method as `self.chunk_with_gemini(self, chunks, description,
history)` — `self` passed again as a positional argument, i.e. five arguments
for a four-parameter method — so Python raises `TypeError` at the call site
before any model call runs (`.error`); moreover neither branch has a `return`,
so even absent the `TypeError` the function would return `None`. When the model
id matches neither substring the function falls through and returns `None`
(`.ok` with first component `none`); the second component of `.ok` is the final
content of the caller's `history` list, which is never touched. -/
def process_with_chunking (_genG : GemOracle) (_genD : DsOracle)
    (model : String) (_chunks : List String) (_description : String)
    (history : List ChatMsg) :
    Except String (Option (String × List ChatMsg) × List ChatMsg) :=
  if strIn "gemini" model then
    .error "TypeError: chunk_with_gemini() takes from 3 to 4 positional arguments but 5 were given"
  else if strIn "deepseek" model then
    .error "TypeError: chunk_with_deepseek() takes from 3 to 4 positional arguments but 5 were given"
  else
    .ok (none, history)

/-- Embeds `Model.process_with_nochunking` (AI_model.py lines 27–42): dispatch on
substrings of the model id; falls through to `None` (first component `none`)
when neither matches. Second component of `.ok`: final content of the caller's
`history` list. -/
def process_with_nochunking (genG : GemOracle) (genText : GemTextOracle)
    (genD : DsOracle) (model : String) (chunks : List String)
    (description : String) (history : List ChatMsg) :
    Except String (Option (String × List ChatMsg) × List ChatMsg) :=
  if strIn "gemini" model then
    match nochunk_with_gemini genG genText chunks description history with
    | .error e => .error e
    | .ok (r, h) => .ok (some (r, h), h)
  else if strIn "deepseek" model then
    let (r, h) := nochunk_with_deepseek genD chunks description history
    .ok (some (r, h), h)
  else
    .ok (none, history)

/-! ## `WebScraper.scrape` (scraper.py lines 33–78)

The Selenium fetch plus the BeautifulSoup body cleaning (lines 42–66) are the
external ContentExtractor collaborator, modelled as one oracle
`page : url ↦ Except error (Option cleaned_text)`: `.error e` when
`driver.get`/`page_source` raises (the `except` at line 46 then *returns the
exception object itself*), `.ok none` when the soup has no `<body>`, and
`.ok (some cleaned)` with the cleaned line-joined text otherwise. The
line-based URL harvesting (lines 67–73) is repository code and is embedded. -/

/-- Return value of `WebScraper.scrape`: either the `(cleaned_result, urls)`
pair — where `urls` is a set of URL strings (`inr`, modelled as an
insertion-ordered duplicate-free list) or the plain *string* `""` when the page
has no body (`inl`, line 77) — or the exception object a failing fetch returns
as-is (line 47). -/
inductive ScrapeRet where
  | pair : String → (String ⊕ List String) → ScrapeRet
  | exn : String → ScrapeRet
deriving DecidableEq, Repr

/-- Python `set.add`: insertion-ordered set add on the duplicate-free list model. -/
def addUrl (acc : List String) (u : String) : List String :=
  if u ∈ acc then acc else acc ++ [u]

/-- scraper.py lines 67–73: harvest into `urls` every line of the cleaned text
whose `strip("[]")` contains `"https"` or `"http"`. (`splitlines` on text built
by joining with `"\n"` is splitting on the newline character.) -/
def scrapeUrls (cleaned : String) : List String :=
  (pySplitChar '\n' cleaned).foldl
    (fun acc link =>
      let s := stripSet ['[', ']'] link
      if strIn "https" s || strIn "http" s then addUrl acc s else acc)
    []

/-- Embeds `WebScraper.scrape`. -/
def scrape (page : String → Except String (Option String)) (url : String) :
    ScrapeRet :=
  match page url with
  | .error e => .exn e
  | .ok none => .pair "" (Sum.inl "")
  | .ok (some cleaned) => .pair cleaned (Sum.inr (scrapeUrls cleaned))

/-! ## `WebScraper.Multi_scrape` (scraper.py lines 124–219) -/

/-- The crawl loop state of `Multi_scrape`, plus one instrumentation field:
`fetched` records, in order, the URLs on which `self.scrape` was invoked
(line 169) — it exists only so that "pages fetched" is observable, and no
branch of the loop reads it. -/
structure CrawlState where
  all_cleaned_text : String
  visited_urls : List String
  urls_to_scrape : List String
  scraped_count : Nat
  fetched : List String
deriving DecidableEq, Repr

/-- scraper.py lines 203–205: sequentially append each discovered URL to the
queue unless it is already visited or already queued. -/
def enqueueUrls (visited : List String) : List String → List String → List String
  | q, [] => q
  | q, u :: us =>
    if u ∈ visited ∨ u ∈ q then enqueueUrls visited q us
    else enqueueUrls visited (q ++ [u]) us

/-- Embeds `new_urls = list(links)` (line 200): on the no-body marker `""` (`inl`),
Python iterates the characters of the string (none, as it is empty); on a set
(`inr`) it lists the elements. -/
def linksList : String ⊕ List String → List String
  | Sum.inl s => s.data.map (fun c => String.mk [c])
  | Sum.inr l => l

/-- The `while` loop of `Multi_scrape` (lines 146–208), fuel-indexed (the
Python loop always terminates — enqueues happen only on successful scrapes,
which are bounded by `max_urls` — but the bound depends on the oracle, so the
embedding takes explicit fuel and the theorems quantify over it). Returns the
final state and whether the loop exited through the CloudFlare `return`
(line 152). Per iteration, in source order: pop the head; if it contains
`"cloudflare"`, return the corpus accumulated so far; skip it if visited or
not http(s)-schemed; otherwise mark it visited, scrape it (an exception —
including the `TypeError` from unpacking the exception object `scrape`
returns on fetch failure — is caught by the `except` at line 207, continuing
the loop), extend the corpus (blank-line separated), bump the counter, and if
`urls_scrape` is set and budget remains, enqueue the unseen discovered links.
`extract_images` (lines 181–184) touches none of the loop state and is
omitted, as is the UI/session-state reporting. -/
def multiGo (page : String → Except String (Option String)) (max_urls : Nat)
    (urls_scrape : Bool) : Nat → CrawlState → CrawlState × Bool
  | 0, st => (st, false)
  | fuel + 1, st =>
    match st.urls_to_scrape with
    | [] => (st, false)
    | current :: rest =>
      if st.scraped_count < max_urls then
        if strIn "cloudflare" current then
          ({ st with urls_to_scrape := rest }, true)
        else if current ∈ st.visited_urls
            ∨ ¬(pyStartsWith "http://" current || pyStartsWith "https://" current) then
          multiGo page max_urls urls_scrape fuel { st with urls_to_scrape := rest }
        else
          let st1 : CrawlState :=
            { st with urls_to_scrape := rest,
                      visited_urls := st.visited_urls ++ [current],
                      fetched := st.fetched ++ [current] }
          match scrape page current with
          | .exn _ => multiGo page max_urls urls_scrape fuel st1
          | .pair cleaned links =>
            let corpus := if st1.all_cleaned_text = "" then cleaned
                          else st1.all_cleaned_text ++ "\n\n" ++ cleaned
            let cnt := st1.scraped_count + 1
            let q := if urls_scrape ∧ cnt < max_urls then
                       enqueueUrls st1.visited_urls st1.urls_to_scrape (linksList links)
                     else st1.urls_to_scrape
            multiGo page max_urls urls_scrape fuel
              { st1 with all_cleaned_text := corpus, scraped_count := cnt,
                         urls_to_scrape := q }
      else (st, false)

/-- Embeds `WebScraper.Multi_scrape`: run the loop from the seeded state
(lines 139–142). `adv_options` is flattened into `max_urls` (page budget) and
`urls_scrape` (link following). -/
def Multi_scrape (page : String → Except String (Option String))
    (start_url : String) (max_urls : Nat) (urls_scrape : Bool) (fuel : Nat) :
    CrawlState × Bool :=
  multiGo page max_urls urls_scrape fuel
    { all_cleaned_text := "", visited_urls := [], urls_to_scrape := [start_url],
      scraped_count := 0, fetched := [] }

/-! ## `DataProcessor.Result_to_dataframe` (data_preprocessor.py lines 16–59)

The table is modelled as a list of records; a record is the order-preserving
`header.zip cols` association list standing for Python's `dict(zip(header,
cols))` (for a header with repeated column names the Python dict would keep
only the last binding; no claim involves repeated names). The closing pandas
`convert_dtypes` pass (line 57) changes column dtypes, not the cell grid, and
is not modelled. -/

/-- Lines 31–36: find the first line that is non-blank, contains a pipe and
does not contain `"---"` — the header. Returns it together with the lines
from `header_line + 2` on (the line right after the header is skipped
unconditionally as the separator row). -/
def findHeader : List String → Option (String × List String)
  | [] => none
  | l :: ls =>
    if pyTrim l != "" && strIn "|" l && !(strIn "---" l) then some (l, ls.drop 1)
    else findHeader ls

/-- Line 42 / line 50: strip outer pipes, split on pipes, trim each cell. -/
def tableCells (line : String) : List String :=
  (pySplitChar '|' (stripSet ['|'] line)).map pyTrim

/-- Loop body, lines 46–53: skip blank and pipe-free lines; keep a row only
when its cell count equals the header's column count. -/
def rowOf (header : List String) (line : String) :
    Option (List (String × String)) :=
  if pyTrim line == "" || !(strIn "|" line) then none
  else
    let cols := tableCells line
    if cols.length = header.length then some (header.zip cols) else none

/-- Embeds `DataProcessor.Result_to_dataframe`. -/
def Result_to_dataframe (table : String) : List (List (String × String)) :=
  if table == "" || !(strIn "|" table) then []
  else
    match findHeader (pySplitChar '\n' (pyTrim table)) with
    | none => []
    | some (hline, rest) => rest.filterMap (rowOf (tableCells hline))

/-! ## Concrete oracles used by counterexamples and witnesses -/

/-- Gemini oracle that always streams `"x"`. -/
def okG : GemOracle := fun _ _ => .ok "x"

/-- Gemini oracle that always streams an empty response. -/
def emptyG : GemOracle := fun _ _ => .ok ""

/-- Gemini oracle whose call always raises. -/
def failG : GemOracle := fun _ _ => .error "boom"

/-- Single-shot Gemini oracle that always answers `"x"`. -/
def okT : GemTextOracle := fun _ _ => .ok "x"

/-- Single-shot Gemini oracle whose call always raises. -/
def failT : GemTextOracle := fun _ _ => .error "boom"

/-- DeepSeek oracle that always streams `"x"`. -/
def okD : DsOracle := fun _ => .ok "x"

/-- DeepSeek oracle that always streams an empty response. -/
def emptyD : DsOracle := fun _ => .ok ""

/-- DeepSeek oracle whose call always raises. -/
def failD : DsOracle := fun _ => .error "boom"

/-- Page oracle whose fetch always raises with message `"net"`. -/
def failPage : String → Except String (Option String) := fun _ => .error "net"

/-- Page oracle for pages whose markup has no `<body>`. -/
def nobodyPage : String → Except String (Option String) := fun _ => .ok none

/-! ## C4 — the chunker -/

/-- The claim `split("", L)` = `[""]` is false: the comprehension over
`range(0, 0, L)` is empty, so the empty string yields the empty list. -/
theorem C4_counterexample : dom_content_length "" 5 ≠ [""] := by
  intro h
  rw [dom_content_length] at h
  rw [show ("" : String).data = [] from rfl, chunkList_nil] at h
  exact List.noConfusion h

/-- C4 (amended): for every text `T` and `L > 0`, concatenating
`dom_content_length T L` reproduces `T` exactly and every chunk except
possibly the last has length exactly `L`; splitting the empty string returns
the *empty list* (not a singleton empty chunk). -/
theorem C4_chunker (T : String) (L : Nat) (hL : 0 < L) :
    String.join (dom_content_length T L) = T
    ∧ (∀ c ∈ (dom_content_length T L).dropLast, c.length = L)
    ∧ dom_content_length "" L = [] := by
  refine ⟨?_, ?_, ?_⟩
  · rw [String.join_eq, dom_content_length]
    have hmap : ((chunkList L T.data).map String.mk).map String.data
        = chunkList L T.data := by
      rw [List.map_map]
      apply List.map_id''
      intro x
      rfl
    rw [hmap, chunkList_join L (Nat.pos_iff_ne_zero.mp hL) T.data]
  · intro c hc
    rw [dom_content_length, ← List.map_dropLast] at hc
    obtain ⟨l, hl, hcl⟩ := List.mem_map.mp hc
    have := chunkList_dropLast_length L (Nat.pos_iff_ne_zero.mp hL) T.data l hl
    rw [← hcl]
    exact this
  · rw [dom_content_length, show ("" : String).data = [] from rfl, chunkList_nil]
    rfl

/-- Witness for C4 at `T = "abcdefg"`, `L = 3`. -/
theorem C4_chunker_witness :
    String.join (dom_content_length "abcdefg" 3) = "abcdefg"
    ∧ (∀ c ∈ (dom_content_length "abcdefg" 3).dropLast, c.length = 3)
    ∧ dom_content_length "" 3 = [] :=
  C4_chunker "abcdefg" 3 (by decide)

/-! ## C9 — table coercion -/

/-- C9: empty and pipe-free inputs give the empty table; a data row is kept iff
its cell count equals the header's column count; the four-line example parses
to exactly the two expected records. -/
theorem C9_table_coercion :
    Result_to_dataframe "" = []
    ∧ (∀ t, strIn "|" t = false → Result_to_dataframe t = [])
    ∧ Result_to_dataframe "no pipes here" = []
    ∧ (∀ header line, (rowOf header line).isSome = true ↔
        (pyTrim line ≠ "" ∧ strIn "|" line = true
          ∧ (tableCells line).length = header.length))
    ∧ Result_to_dataframe "a|b\n--|--\n1|2|3" = []
    ∧ Result_to_dataframe "a|b\n--|--\n1|2\n3|4"
        = [[("a", "1"), ("b", "2")], [("a", "3"), ("b", "4")]] := by
  refine ⟨by decide, ?_, by decide, ?_, by decide, by decide⟩
  · intro t ht
    rw [Result_to_dataframe]
    simp [ht]
  · intro header line
    by_cases h1 : pyTrim line = ""
    · simp [rowOf, h1]
    · by_cases h2 : strIn "|" line
      · by_cases h3 : (tableCells line).length = header.length
        · simp [rowOf, h1, h2, h3]
        · simp [rowOf, h1, h2, h3]
      · simp [rowOf, h1, h2]

/-- Witness for C9's hypotheses-bearing conjuncts: a pipe-free input and a
mismatched-arity row at concrete values. -/
theorem C9_table_coercion_witness :
    Result_to_dataframe "just words" = []
    ∧ ((rowOf ["a", "b"] "1|2|3").isSome = true ↔
        (pyTrim "1|2|3" ≠ "" ∧ strIn "|" "1|2|3" = true
          ∧ (tableCells "1|2|3").length = ["a", "b"].length)) :=
  ⟨C9_table_coercion.2.1 "just words" (by decide),
   (C9_table_coercion.2.2.2.1 ["a", "b"] "1|2|3")⟩

/-! ## C1 — the chunked extraction entry point -/

/-- C1 fails on the code: `process_with_chunking` passes `self` as an extra
positional argument to the dialect method (five arguments for a four-parameter
method), so for a Gemini or DeepSeek model id the call raises `TypeError`
instead of returning a `(combined_text, updated_history)` pair — and neither
branch has a `return` statement. Here the embedded entry point is evaluated at
the failing inputs for both dialects. -/
theorem C1_process_with_chunking_raises :
    process_with_chunking okG okD "gemini-1.5-flash" ["c"] "d" []
      = .error "TypeError: chunk_with_gemini() takes from 3 to 4 positional arguments but 5 were given"
    ∧ process_with_chunking okG okD "deepseek/deepseek-r1" ["c"] "d" []
      = .error "TypeError: chunk_with_deepseek() takes from 3 to 4 positional arguments but 5 were given" := by
  constructor <;> rfl

/-! ## C7 — the page-level extraction -/

/-- C7 fails on the code: on a fetch failure `WebScraper.scrape` executes
`return e`, handing the exception object itself to the caller instead of a
`(text, urls)` pair, and on a page without a `<body>` it returns `("", "")`
where the second component is the empty *string* (scraper.py line 77), not a
set of URLs. Both failing inputs evaluated here; the happy path does return
the `(cleaned_text, url_set)` pair. -/
theorem C7_scrape_return_shape :
    scrape failPage "https://example.com" = .exn "net"
    ∧ scrape nobodyPage "https://example.com" = .pair "" (Sum.inl "")
    ∧ (∀ page url cleaned, page url = .ok (some cleaned) →
        scrape page url = .pair cleaned (Sum.inr (scrapeUrls cleaned))) := by
  refine ⟨rfl, rfl, ?_⟩
  intro page url cleaned h
  rw [scrape, h]

/-- Witness for C7's hypothesis-bearing conjunct at a concrete page oracle. -/
theorem C7_scrape_return_shape_witness :
    scrape (fun _ => .ok (some "body text")) "https://example.com"
      = .pair "body text" (Sum.inr (scrapeUrls "body text")) :=
  C7_scrape_return_shape.2.2 (fun _ => .ok (some "body text"))
    "https://example.com" "body text" rfl

/-! ## C8 — non-chunked extraction with no content leaves history unchanged -/

/-- C8: with an empty chunk list, whatever the model answers, the non-chunked
extraction returns the caller's history with no turns appended, for both
dialects (the conversational call is single-shot and stateless). -/
theorem C8_nocontent_history_frame (genG : GemOracle) (genText : GemTextOracle)
    (genD : DsOracle) (d : String) (h : List ChatMsg) :
    (∀ r h', nochunk_with_gemini genG genText [] d h = .ok (r, h') → h' = h)
    ∧ (nochunk_with_deepseek genD [] d h).2 = h := by
  constructor
  · intro r h' hok
    rw [nochunk_with_gemini] at hok
    simp only [List.isEmpty_nil, if_true] at hok
    cases hgt : genText scrapesmart_persona d with
    | error e => rw [hgt] at hok; exact Except.noConfusion hok
    | ok t =>
      rw [hgt] at hok
      have := Except.ok.inj hok
      exact (Prod.mk.injEq _ _ _ _ ▸ this).2.symm ▸ rfl
  · rw [nochunk_with_deepseek]
    simp only [List.isEmpty_nil, if_true]
    cases genD [Sum.inr ⟨"system", scrapesmart_persona⟩, Sum.inr ⟨"user", d⟩] with
    | error e => rfl
    | ok t => rfl

/-- Witness for C8 at concrete oracles and a non-empty starting history. -/
theorem C8_nocontent_history_frame_witness :
    (∀ r h', nochunk_with_gemini okG okT [] "d" [⟨"user", "q"⟩] = .ok (r, h') →
      h' = [⟨"user", "q"⟩])
    ∧ (nochunk_with_deepseek okD [] "d" [⟨"user", "q"⟩]).2 = [⟨"user", "q"⟩] :=
  C8_nocontent_history_frame okG okT okD "d" [⟨"user", "q"⟩]

/-! ## C10 — unknown model identifiers -/

/-- C10: when the model id contains neither `"gemini"` nor `"deepseek"`, both
entry points fall through their dispatch, perform no model call (the result is
the same for every oracle), leave the history untouched and return `None`. -/
theorem C10_unknown_model (genG : GemOracle) (genText : GemTextOracle)
    (genD : DsOracle) (model : String) (chunks : List String) (d : String)
    (h : List ChatMsg) (hg : strIn "gemini" model = false)
    (hd : strIn "deepseek" model = false) :
    process_with_chunking genG genD model chunks d h = .ok (none, h)
    ∧ process_with_nochunking genG genText genD model chunks d h = .ok (none, h) := by
  constructor
  · rw [process_with_chunking, if_neg (by simp [hg]), if_neg (by simp [hd])]
  · rw [process_with_nochunking, if_neg (by simp [hg]), if_neg (by simp [hd])]

/-- Witness for C10 at the model id `"gpt-4o"`. -/
theorem C10_unknown_model_witness :
    process_with_chunking okG okD "gpt-4o" ["c"] "d" [] = .ok (none, [])
    ∧ process_with_nochunking okG okT okD "gpt-4o" ["c"] "d" [] = .ok (none, []) :=
  C10_unknown_model okG okT okD "gpt-4o" ["c"] "d" [] (by decide) (by decide)

/-! ## C2 — history growth in chunked extraction -/

/-- If every Gemini call succeeds, the chunk loop grows the history by exactly
`2` per chunk with a non-empty stripped response and `1` per chunk with an
empty one: the final length is `h.length + 2k + m` with `k + m` the number of
chunks. -/
theorem gchunkGo_length (gen : GemOracle) (sp d : String)
    (hgen : ∀ s hist, (gen s hist).isOk = true) :
    ∀ (cs : List String) (h : List ChatMsg) (acc : List String),
      ∃ k m, k + m = cs.length ∧
        (gchunkGo gen sp d cs h acc).2.length = h.length + 2 * k + m := by
  intro cs
  induction cs with
  | nil =>
    intro h acc
    exact ⟨0, 0, rfl, by simp [gchunkGo]⟩
  | cons c cs ih =>
    intro h acc
    cases hg : gen sp (h ++ [⟨"user", chunkInput c d⟩]) with
    | error e =>
      have := hgen sp (h ++ [⟨"user", chunkInput c d⟩])
      rw [hg] at this
      simp [Except.isOk, Except.toBool] at this
    | ok r =>
      by_cases hr : pyTrim r = ""
      · obtain ⟨k, m, hkm, hlen⟩ := ih (h ++ [⟨"user", chunkInput c d⟩]) acc
        refine ⟨k, m + 1, by simp [← hkm]; omega, ?_⟩
        simp only [gchunkGo, hg, hr, if_true]
        rw [hlen]
        simp only [List.length_append, List.length_cons, List.length_nil]
        omega
      · obtain ⟨k, m, hkm, hlen⟩ :=
          ih (h ++ [⟨"user", chunkInput c d⟩] ++ [⟨"model", pyTrim r⟩])
            (acc ++ [pyTrim r])
        refine ⟨k + 1, m, by simp [← hkm]; omega, ?_⟩
        simp only [gchunkGo, hg, hr, if_false]
        rw [hlen]
        simp only [List.length_append, List.length_cons, List.length_nil]
        omega

/-- If every DeepSeek call succeeds, the chunk loop grows the history by
exactly `2` per chunk with a non-empty stripped response and `0` per chunk
with an empty one: the final length is `h.length + 2k` for some
`k ≤` the number of chunks. -/
theorem dchunkGo_length (gen : DsOracle) (sp d : String)
    (hgen : ∀ msgs, (gen msgs).isOk = true) :
    ∀ (cs : List String) (h : List ChatMsg) (acc : List String),
      ∃ k, k ≤ cs.length ∧
        (dchunkGo gen sp d cs h acc).2.length = h.length + 2 * k := by
  intro cs
  induction cs with
  | nil =>
    intro h acc
    exact ⟨0, Nat.le_refl 0, by simp [dchunkGo]⟩
  | cons c cs ih =>
    intro h acc
    cases hg : gen (Sum.inl sp :: h.map Sum.inr
        ++ [Sum.inr ⟨"user", chunkInput c d⟩]) with
    | error e =>
      have := hgen (Sum.inl sp :: h.map Sum.inr ++ [Sum.inr ⟨"user", chunkInput c d⟩])
      rw [hg] at this
      simp [Except.isOk, Except.toBool] at this
    | ok r =>
      by_cases hr : pyTrim r = ""
      · obtain ⟨k, hk, hlen⟩ := ih h acc
        refine ⟨k, Nat.le_succ_of_le hk, ?_⟩
        simp only [dchunkGo, hg, hr, if_true]
        exact hlen
      · obtain ⟨k, hk, hlen⟩ :=
          ih (h ++ [⟨"user", chunkInput c d⟩, ⟨"assistant", pyTrim r⟩])
            (acc ++ [pyTrim r])
        refine ⟨k + 1, by simpa using Nat.succ_le_succ hk, ?_⟩
        simp only [dchunkGo, hg, hr, if_false]
        rw [hlen]
        simp only [List.length_append, List.length_cons, List.length_nil]
        omega

/-- The claim fails for the Gemini dialect: `chunk_with_gemini` appends the
user turn *before* the model call, so a chunk whose stripped response is empty
still grows the history — by 1, not 0. Concretely, one chunk against an
oracle streaming `""` leaves a history of length 1. -/
theorem C2_counterexample :
    (chunk_with_gemini emptyG ["c"] "d" ([] : List ChatMsg)).2.length ≠ 0 := by
  decide

/-- C2 (amended): per chunk, the DeepSeek loop grows the history by exactly 2
on a non-empty stripped response and 0 on an empty one, while the Gemini loop
grows it by exactly 2 on non-empty and by exactly 1 (not 0) on empty; over a
whole run with no failing call the totals are `2k + m` (Gemini, `k + m` = #
chunks) and `2k` (DeepSeek, `k ≤` # chunks). -/
theorem C2_history_growth (genG : GemOracle) (genD : DsOracle) (d : String)
    (h : List ChatMsg) (c : String) (cs : List String) :
    (∀ r, genG (construct_prompt d) (h ++ [⟨"user", chunkInput c d⟩]) = .ok r →
      (pyTrim r ≠ "" → (chunk_with_gemini genG [c] d h).2.length = h.length + 2)
      ∧ (pyTrim r = "" → (chunk_with_gemini genG [c] d h).2.length = h.length + 1))
    ∧ (∀ r, genD (Sum.inl (construct_prompt d) :: h.map Sum.inr
          ++ [Sum.inr ⟨"user", chunkInput c d⟩]) = .ok r →
      (pyTrim r ≠ "" → (chunk_with_deepseek genD [c] d h).2.length = h.length + 2)
      ∧ (pyTrim r = "" → (chunk_with_deepseek genD [c] d h).2.length = h.length))
    ∧ ((∀ s hist, (genG s hist).isOk = true) →
        ∃ k m, k + m = (c :: cs).length ∧
          (chunk_with_gemini genG (c :: cs) d h).2.length = h.length + 2 * k + m)
    ∧ ((∀ msgs, (genD msgs).isOk = true) →
        ∃ k, k ≤ (c :: cs).length ∧
          (chunk_with_deepseek genD (c :: cs) d h).2.length = h.length + 2 * k) := by
  refine ⟨?_, ?_, ?_, ?_⟩
  · intro r hg
    constructor
    · intro hr
      simp [chunk_with_gemini, gchunkGo, hg, hr]
    · intro hr
      simp [chunk_with_gemini, gchunkGo, hg, hr]
  · intro r hg
    constructor
    · intro hr
      rw [chunk_with_deepseek]
      simp only [dchunkGo, hg]
      simp [hr, dchunkGo]
    · intro hr
      rw [chunk_with_deepseek]
      simp only [dchunkGo, hg]
      simp [hr, dchunkGo]
  · intro hgen
    exact gchunkGo_length genG (construct_prompt d) d hgen (c :: cs) h []
  · intro hgen
    exact dchunkGo_length genD (construct_prompt d) d hgen (c :: cs) h []

/-- Witness for C2 at concrete oracles: one non-empty-response Gemini chunk
(+2) and one empty-response DeepSeek chunk (+0). -/
theorem C2_history_growth_witness :
    (chunk_with_gemini okG ["c"] "d" ([] : List ChatMsg)).2.length = 0 + 2
    ∧ (chunk_with_deepseek emptyD ["c"] "d" ([] : List ChatMsg)).2.length = 0 := by
  constructor
  · exact ((C2_history_growth okG emptyD "d" [] "c" []).1 "x" rfl).1 (by decide)
  · exact ((C2_history_growth okG emptyD "d" [] "c" []).2.1 "" rfl).2 rfl

/-! ## C3 — failure semantics of the extraction functions -/

/-- The claim fails on the code: the Gemini non-chunked *no-content* branch
(AI_model.py lines 188–198) performs its model call before the `try` block
starts at line 203, so a failure there propagates to the caller instead of
being caught. Evaluated at an always-raising oracle with empty chunks. -/
theorem C3_counterexample :
    nochunk_with_gemini failG failT [] "d" ([] : List ChatMsg)
      = .error "boom" := by
  rfl

/-- C3 (amended): every model-call failure is caught inside the extraction
function — the chunked loops return `("", history-as-mutated-so-far)`, the
non-chunked DeepSeek paths return `("", history)`, and the non-chunked Gemini
path with content returns `("", history + the pending user turn)` — *except*
in the Gemini non-chunked no-content branch, whose model call sits outside the
`try` and therefore propagates. (Note the text component returned on a caught
failure is always `""`, not the partial combined output.) -/
theorem C3_failure_handling (genG : GemOracle) (genText : GemTextOracle)
    (genD : DsOracle) (d : String) (h : List ChatMsg) (c : String)
    (cs : List String) (e : String) :
    (genG (construct_prompt d) (h ++ [⟨"user", chunkInput c d⟩]) = .error e →
      chunk_with_gemini genG (c :: cs) d h = ("", h ++ [⟨"user", chunkInput c d⟩]))
    ∧ (genD (Sum.inl (construct_prompt d) :: h.map Sum.inr
          ++ [Sum.inr ⟨"user", chunkInput c d⟩]) = .error e →
      chunk_with_deepseek genD (c :: cs) d h = ("", h))
    ∧ ((nochunk_with_gemini genG genText (c :: cs) d h).isOk = true)
    ∧ (genG (construct_prompt d) (h ++ [⟨"user", joinedInput (c :: cs) d⟩]) = .error e →
      nochunk_with_gemini genG genText (c :: cs) d h
        = .ok ("", h ++ [⟨"user", joinedInput (c :: cs) d⟩]))
    ∧ (genD [Sum.inr ⟨"system", scrapesmart_persona⟩, Sum.inr ⟨"user", d⟩] = .error e →
      nochunk_with_deepseek genD [] d h = ("", h))
    ∧ (genD (Sum.inl (construct_prompt d) :: h.map Sum.inr
          ++ [Sum.inr ⟨"user", joinedInput (c :: cs) d⟩]) = .error e →
      nochunk_with_deepseek genD (c :: cs) d h = ("", h))
    ∧ (genText scrapesmart_persona d = .error e →
      nochunk_with_gemini genG genText [] d h = .error e) := by
  refine ⟨?_, ?_, ?_, ?_, ?_, ?_, ?_⟩
  · intro hg
    rw [chunk_with_gemini]
    simp only [gchunkGo, hg]
  · intro hg
    rw [chunk_with_deepseek]
    simp only [dchunkGo, hg]
  · rw [nochunk_with_gemini]
    simp only [List.isEmpty_cons, Bool.false_eq_true, if_false]
    cases genG (construct_prompt d) (h ++ [⟨"user", joinedInput (c :: cs) d⟩]) with
    | error e2 => rfl
    | ok r =>
      by_cases hr : pyTrim r = "" <;> simp [hr, Except.isOk, Except.toBool]
  · intro hg
    rw [nochunk_with_gemini]
    simp only [List.isEmpty_cons, Bool.false_eq_true, if_false, hg]
  · intro hg
    rw [nochunk_with_deepseek]
    simp only [List.isEmpty_nil, if_true, hg]
  · intro hg
    rw [nochunk_with_deepseek]
    simp only [List.isEmpty_cons, Bool.false_eq_true, if_false, hg]
  · intro hg
    rw [nochunk_with_gemini]
    simp only [List.isEmpty_nil, if_true, hg]

/-- Witness for C3 at always-raising oracles. -/
theorem C3_failure_handling_witness :
    chunk_with_gemini failG ["c"] "d" [] = ("", [⟨"user", chunkInput "c" "d"⟩])
    ∧ chunk_with_deepseek failD ["c"] "d" [] = ("", [])
    ∧ nochunk_with_deepseek failD [] "d" [] = ("", [])
    ∧ nochunk_with_gemini failG failT [] "d" [] = .error "boom" :=
  ⟨(C3_failure_handling failG failT failD "d" [] "c" [] "boom").1 rfl,
   (C3_failure_handling failG failT failD "d" [] "c" [] "boom").2.1 rfl,
   (C3_failure_handling failG failT failD "d" [] "c" [] "boom").2.2.2.2.1 rfl,
   (C3_failure_handling failG failT failD "d" [] "c" [] "boom").2.2.2.2.2.2 rfl⟩

/-! ## C5 — CloudFlare marker aborts the whole crawl -/

/-- C5: whenever the URL popped from the head of the frontier contains
`"cloudflare"`, the loop returns at once — through the abort exit (`true`) —
with the state otherwise untouched: the returned corpus is exactly
`st.all_cleaned_text`, the text accumulated strictly before the pop, and
nothing further is fetched. -/
theorem C5_cloudflare_abort (page : String → Except String (Option String))
    (max_urls : Nat) (follow : Bool) (fuel : Nat) (st : CrawlState)
    (current : String) (rest : List String)
    (hf : st.urls_to_scrape = current :: rest)
    (hc : strIn "cloudflare" current = true)
    (hcnt : st.scraped_count < max_urls) (hfuel : 0 < fuel) :
    multiGo page max_urls follow fuel st
      = ({ st with urls_to_scrape := rest }, true) := by
  cases fuel with
  | zero => exact absurd hfuel (by omega)
  | succ n =>
    simp only [multiGo, hf]
    rw [if_pos hcnt, if_pos hc]

/-- Concrete crawl state about to pop a CloudFlare-marked URL. -/
def cfState : CrawlState :=
  { all_cleaned_text := "prior corpus", visited_urls := ["https://a"],
    urls_to_scrape := ["https://x.cloudflare.com", "https://b"],
    scraped_count := 1, fetched := ["https://a"] }

/-- Witness for C5 at a concrete mid-crawl state. -/
theorem C5_cloudflare_abort_witness :
    multiGo nobodyPage 5 true 10 cfState
      = ({ cfState with urls_to_scrape := ["https://b"] }, true) :=
  C5_cloudflare_abort nobodyPage 5 true 10 cfState "https://x.cloudflare.com"
    ["https://b"] rfl (by decide) (by decide) (by decide)

/-! ## C6 — crawler invariants -/

/-- The loop invariant of `Multi_scrape`: the visited set has no duplicates,
the frontier has no duplicates, and no queued URL is already visited. -/
def CrawlInv (st : CrawlState) : Prop :=
  st.visited_urls.Nodup ∧ st.urls_to_scrape.Nodup
    ∧ ∀ u ∈ st.urls_to_scrape, u ∉ st.visited_urls

instance (st : CrawlState) : Decidable (CrawlInv st) := by
  unfold CrawlInv
  infer_instance

/-- Everything `enqueueUrls` returns was either already queued or is an
unvisited discovered link: a URL already visited is never enqueued. -/
theorem enqueueUrls_mem (visited : List String) :
    ∀ (links q : List String) (u : String), u ∈ enqueueUrls visited q links →
      u ∈ q ∨ (u ∈ links ∧ u ∉ visited) := by
  intro links
  induction links with
  | nil =>
    intro q u hu
    exact Or.inl hu
  | cons l ls ih =>
    intro q u hu
    rw [enqueueUrls] at hu
    by_cases hl : l ∈ visited ∨ l ∈ q
    · rw [if_pos hl] at hu
      rcases ih q u hu with h1 | ⟨h2, h3⟩
      · exact Or.inl h1
      · exact Or.inr ⟨List.mem_cons_of_mem _ h2, h3⟩
    · rw [if_neg hl] at hu
      push_neg at hl
      rcases ih (q ++ [l]) u hu with h1 | ⟨h2, h3⟩
      · rcases List.mem_append.mp h1 with h1a | h1b
        · exact Or.inl h1a
        · have hul : u = l := by simpa using h1b
          exact Or.inr ⟨by rw [hul]; exact List.mem_cons_self l ls,
                        by rw [hul]; exact hl.1⟩
      · exact Or.inr ⟨List.mem_cons_of_mem _ h2, h3⟩

/-- Lemma: `enqueueUrls` never introduces a duplicate into the queue. -/
theorem enqueueUrls_nodup (visited : List String) :
    ∀ (links q : List String), q.Nodup → (enqueueUrls visited q links).Nodup := by
  intro links
  induction links with
  | nil =>
    intro q hq
    exact hq
  | cons l ls ih =>
    intro q hq
    rw [enqueueUrls]
    by_cases hl : l ∈ visited ∨ l ∈ q
    · rw [if_pos hl]
      exact ih q hq
    · rw [if_neg hl]
      push_neg at hl
      refine ih (q ++ [l]) ?_
      simp [List.nodup_append, hq, hl.2]

/-- One step of the crawl preserves `CrawlInv` and the page-count bound. -/
theorem multiGo_preserves (page : String → Except String (Option String))
    (max_urls : Nat) (follow : Bool) :
    ∀ (fuel : Nat) (st : CrawlState), CrawlInv st →
      st.scraped_count ≤ max_urls →
      CrawlInv (multiGo page max_urls follow fuel st).1
      ∧ (multiGo page max_urls follow fuel st).1.scraped_count ≤ max_urls := by
  intro fuel
  induction fuel with
  | zero =>
    intro st hinv hcnt
    exact ⟨hinv, hcnt⟩
  | succ n ih =>
    intro st hinv hcnt
    obtain ⟨hvn, hfn, hdis⟩ := hinv
    rcases hf : st.urls_to_scrape with _ | ⟨current, rest⟩
    · simp only [multiGo, hf]
      exact ⟨⟨hvn, hf ▸ hfn, hf ▸ hdis⟩, hcnt⟩
    · rw [hf] at hfn hdis
      have hrn : rest.Nodup := (List.nodup_cons.mp hfn).2
      have hcr : current ∉ rest := (List.nodup_cons.mp hfn).1
      have hdr : ∀ u ∈ rest, u ∉ st.visited_urls :=
        fun u hu => hdis u (List.mem_cons_of_mem _ hu)
      simp only [multiGo, hf]
      by_cases hm : st.scraped_count < max_urls
      · rw [if_pos hm]
        by_cases hcf : strIn "cloudflare" current = true
        · rw [if_pos hcf]
          exact ⟨⟨hvn, hrn, hdr⟩, hcnt⟩
        · rw [if_neg hcf]
          by_cases hskip : current ∈ st.visited_urls
              ∨ ¬(pyStartsWith "http://" current || pyStartsWith "https://" current) = true
          · rw [if_pos hskip]
            exact ih _ ⟨hvn, hrn, hdr⟩ hcnt
          · rw [if_neg hskip]
            push_neg at hskip
            have hcv : current ∉ st.visited_urls := hskip.1
            have hvn1 : (st.visited_urls ++ [current]).Nodup := by
              simp [List.nodup_append, hvn, hcv]
            have hdr1 : ∀ u ∈ rest, u ∉ st.visited_urls ++ [current] := by
              intro u hu
              simp only [List.mem_append, List.mem_singleton]
              rintro (h1 | h2)
              · exact hdr u hu h1
              · exact hcr (h2 ▸ hu)
            rcases hs : scrape page current with ⟨cleaned, links⟩ | e
            · simp only [hs]
              refine ih _ ⟨hvn1, ?_, ?_⟩
                (by show st.scraped_count + 1 ≤ max_urls; omega)
              · dsimp only
                split
                · exact enqueueUrls_nodup _ _ _ hrn
                · exact hrn
              · dsimp only
                intro u hu
                split at hu
                · rcases enqueueUrls_mem _ _ _ _ hu with h1 | ⟨_, h3⟩
                  · exact hdr1 u h1
                  · exact h3
                · exact hdr1 u hu
            · simp only [hs]
              exact ih _ ⟨hvn1, hrn, hdr1⟩ hcnt
      · rw [if_neg hm]
        exact ⟨⟨hvn, hf ▸ hfn, hf ▸ hdis⟩, hcnt⟩

/-- With a budget of one page, every URL the crawl ever hands to `scrape` is
the start URL: after the first success the budget check blocks every enqueue,
and failures enqueue nothing. -/
theorem multiGo_max1_fetched (page : String → Except String (Option String)) :
    ∀ (fuel : Nat) (st : CrawlState) (start : String),
      (∀ u ∈ st.urls_to_scrape, u = start) → (∀ u ∈ st.fetched, u = start) →
      ∀ u ∈ (multiGo page 1 true fuel st).1.fetched, u = start := by
  intro fuel
  induction fuel with
  | zero =>
    intro st start _ hft
    exact hft
  | succ n ih =>
    intro st start hfr hft
    rcases hf : st.urls_to_scrape with _ | ⟨current, rest⟩
    · simp only [multiGo, hf]
      exact hft
    · rw [hf] at hfr
      have hcs : current = start := hfr current (List.mem_cons_self _ _)
      have hfr1 : ∀ u ∈ rest, u = start :=
        fun u hu => hfr u (List.mem_cons_of_mem _ hu)
      simp only [multiGo, hf]
      by_cases hm : st.scraped_count < 1
      · rw [if_pos hm]
        by_cases hcf : strIn "cloudflare" current = true
        · rw [if_pos hcf]
          exact hft
        · rw [if_neg hcf]
          by_cases hskip : current ∈ st.visited_urls
              ∨ ¬(pyStartsWith "http://" current || pyStartsWith "https://" current) = true
          · rw [if_pos hskip]
            exact ih _ start hfr1 hft
          · rw [if_neg hskip]
            have hft1 : ∀ u ∈ st.fetched ++ [current], u = start := by
              intro u hu
              rcases List.mem_append.mp hu with h1 | h2
              · exact hft u h1
              · rw [List.mem_singleton.mp h2]
                exact hcs
            rcases hs : scrape page current with ⟨cleaned, links⟩ | e
            · simp only [hs]
              refine ih _ start ?_ hft1
              dsimp only
              split
              · rename_i henq
                have habs : st.scraped_count + 1 < 1 := henq.2
                exact absurd habs (by omega)
              · exact hfr1
            · simp only [hs]
              exact ih _ start hfr1 hft1
      · rw [if_neg hm]
        exact hft

/-- C6: throughout every crawl the invariant — duplicate-free visited set,
duplicate-free frontier, no queued URL already visited — is preserved to the
final state; the count of successfully scraped pages never exceeds
`max_urls`; a URL is enqueued only if it is an unvisited discovered link not
already queued; and with `max_urls = 1` and link-following on, only the start
URL is ever handed to `scrape`. -/
theorem C6_crawler_invariants (page : String → Except String (Option String))
    (max_urls : Nat) (follow : Bool) (fuel : Nat) (st : CrawlState)
    (hinv : CrawlInv st) (hcnt : st.scraped_count ≤ max_urls) :
    CrawlInv (multiGo page max_urls follow fuel st).1
    ∧ (multiGo page max_urls follow fuel st).1.scraped_count ≤ max_urls
    ∧ (∀ (v q links : List String) (u : String),
        u ∈ enqueueUrls v q links → u ∈ q ∨ (u ∈ links ∧ u ∉ v))
    ∧ (∀ (page2 : String → Except String (Option String)) (start : String)
        (fuel2 : Nat),
        ∀ u ∈ (Multi_scrape page2 start 1 true fuel2).1.fetched, u = start) := by
  refine ⟨(multiGo_preserves page max_urls follow fuel st hinv hcnt).1,
          (multiGo_preserves page max_urls follow fuel st hinv hcnt).2,
          fun v q links u => enqueueUrls_mem v links q u,
          fun page2 start fuel2 => ?_⟩
  refine multiGo_max1_fetched page2 fuel2 _ start ?_ ?_
  · intro u hu
    simpa using hu
  · intro u hu
    simp at hu

/-- Witness for C6 from a freshly seeded crawl state. -/
theorem C6_crawler_invariants_witness :
    CrawlInv (multiGo nobodyPage 2 true 10
        { all_cleaned_text := "", visited_urls := [],
          urls_to_scrape := ["https://a"], scraped_count := 0, fetched := [] }).1
    ∧ (multiGo nobodyPage 2 true 10
        { all_cleaned_text := "", visited_urls := [],
          urls_to_scrape := ["https://a"], scraped_count := 0, fetched := [] }).1.scraped_count ≤ 2
    ∧ (∀ (v q links : List String) (u : String),
        u ∈ enqueueUrls v q links → u ∈ q ∨ (u ∈ links ∧ u ∉ v))
    ∧ (∀ (page2 : String → Except String (Option String)) (start : String)
        (fuel2 : Nat),
        ∀ u ∈ (Multi_scrape page2 start 1 true fuel2).1.fetched, u = start) :=
  C6_crawler_invariants nobodyPage 2 true 10
    { all_cleaned_text := "", visited_urls := [],
      urls_to_scrape := ["https://a"], scraped_count := 0, fetched := [] }
    (by decide) (by decide)

end ScrapeSmart
